import Mathlib

/-!
Verification of the real-time retrospective board core (MeetingBoard.tsx,
Dashboard, and the SQL row-security policies) against its specification.
Timestamps are modelled as milliseconds since the epoch (Nat), matching the
getTime arithmetic of the source; database calls are modelled by explicit
store-transformer functions, with the caller-supplied outcome of a durable
call passed in as a parameter.
-/

namespace Retro

/-- Status of a meeting (board): active or ended. -/
inductive MeetingStatus where
  | active
  | ended
deriving DecidableEq, Repr

/-- A row of the meetings table, mirroring the Meeting interface of
MeetingBoard.tsx (id, title, meeting_code, created_by, status, ended_at,
ended_by, created_at). -/
structure Meeting where
  id : String
  title : String
  meeting_code : String
  created_by : String
  status : MeetingStatus
  ended_at : Option Nat
  ended_by : Option String
  created_at : Nat
deriving DecidableEq, Repr

/-- The fixed two hour expiry budget, in milliseconds
(2 * 60 * 60 * 1000 in checkMeetingExpiration). -/
def expiryMs : Nat := 2 * 60 * 60 * 1000

/-- Effect on one meetings row of the auto-end update issued by
checkMeetingExpiration (MeetingBoard.tsx) and checkExpiredMeetings
(Dashboard): the payload sets status to ended, ended_at to now and
ended_by to null; the update filter is the meeting id only, and the
row-security policy for UPDATE on meetings admits rows whose created_by
equals the caller. There is no condition on the current status. -/
def autoEndRow (caller mid : String) (now : Nat) (m : Meeting) : Meeting :=
  if m.id = mid ∧ m.created_by = caller then
    { m with status := .ended, ended_at := some now, ended_by := none }
  else m

/-- The auto-end update applied to the whole meetings table. -/
def meetingsAutoEndUpdate (caller mid : String) (now : Nat)
    (db : List Meeting) : List Meeting :=
  db.map (autoEndRow caller mid now)

/-- checkMeetingExpiration from MeetingBoard.tsx: return if the local copy
of the meeting already shows ended; otherwise, if now has reached
created_at plus two hours, issue the auto-end update filtered by the
meeting id. -/
def checkMeetingExpiration (now : Nat) (localMeeting : Meeting)
    (caller : String) (db : List Meeting) : List Meeting :=
  if localMeeting.status = .ended then db
  else if localMeeting.created_at + expiryMs ≤ now then
    meetingsAutoEndUpdate caller localMeeting.id now db
  else db

/-- checkExpiredMeetings from the dashboard component: select the rows of
the caller that are active and older than two hours, then issue the same
auto-end update for each of them, filtered by id only. -/
def checkExpiredMeetings (caller : String) (now : Nat)
    (db : List Meeting) : List Meeting :=
  let expired := db.filter (fun m =>
    m.created_by == caller && m.status == .active
      && decide (m.created_at < now - expiryMs))
  expired.foldl (fun acc m => meetingsAutoEndUpdate caller m.id now acc) db

/-- Concrete active board used for the expiry scenarios: created at time 0
by user u1. -/
def c1Act : Meeting :=
  ⟨"m1", "Retro", "ABC123", "u1", .active, none, none, 0⟩

/-- C1 counterexample. The claim states that the auto-end update takes
effect only if the status is still active, so that of N racing callers
exactly one write is effective and the others affect zero rows. At this
concrete input two callers (both the creator, each holding a stale local
copy that still shows active) run the expiry check in sequence: the first
ends the board at time 7200000; the second write is also effective, it
overwrites ended_at with 7200001 instead of affecting zero rows, because
the update carries no condition on the stored status. -/
theorem autoEnd_second_writer_also_effective :
    checkMeetingExpiration 7200000 c1Act "u1" [c1Act] =
      [⟨"m1", "Retro", "ABC123", "u1", .ended, some 7200000, none, 0⟩]
    ∧ checkMeetingExpiration 7200001 c1Act "u1"
        (checkMeetingExpiration 7200000 c1Act "u1" [c1Act]) =
      [⟨"m1", "Retro", "ABC123", "u1", .ended, some 7200001, none, 0⟩]
    ∧ checkMeetingExpiration 7200001 c1Act "u1"
        (checkMeetingExpiration 7200000 c1Act "u1" [c1Act]) ≠
      checkMeetingExpiration 7200000 c1Act "u1" [c1Act] := by
  decide

/-- C1, amended. When the expiry check of a caller whose local copy still
shows active finds the budget exceeded, it issues an update that sets
status to ended, ended_at to now and ended_by to null on every row
matching the board id whose creator is the caller, unconditionally on the
stored status (an already ended row is overwritten too); re-applying the
update is a last-write-wins overwrite that leaves the board ended with
ended_by null, so the board never returns to active, but every racing
caller writes effectively rather than exactly one. -/
theorem autoEnd_update_unconditional (caller : String) (now now2 : Nat)
    (lm m : Meeting) (db : List Meeting)
    (hact : lm.status = .active)
    (hexp : lm.created_at + expiryMs ≤ now)
    (hid : m.id = lm.id) (hcb : m.created_by = caller) :
    checkMeetingExpiration now lm caller db =
      db.map (autoEndRow caller lm.id now)
    ∧ autoEndRow caller lm.id now m =
        { m with status := .ended, ended_at := some now, ended_by := none }
    ∧ autoEndRow caller lm.id now2 (autoEndRow caller lm.id now m) =
        autoEndRow caller lm.id now2 m := by
  refine ⟨?_, ?_, ?_⟩
  · simp [checkMeetingExpiration, meetingsAutoEndUpdate, hact, hexp]
  · simp [autoEndRow, hid, hcb]
  · simp [autoEndRow, hid, hcb]

/-- C1 witness: the amended statement evaluated on a concrete board whose
stored row is already ended with a human ender, showing the overwrite. -/
theorem autoEnd_update_unconditional_witness :
    checkMeetingExpiration 7200000 c1Act "u1"
        [⟨"m1", "Retro", "ABC123", "u1", .ended, some 1, some "u9", 0⟩] =
      [⟨"m1", "Retro", "ABC123", "u1", .ended, some 1, some "u9", 0⟩].map
        (autoEndRow "u1" c1Act.id 7200000)
    ∧ autoEndRow "u1" c1Act.id 7200000
        ⟨"m1", "Retro", "ABC123", "u1", .ended, some 1, some "u9", 0⟩ =
      { (⟨"m1", "Retro", "ABC123", "u1", .ended, some 1, some "u9", 0⟩ : Meeting) with
          status := .ended, ended_at := some 7200000, ended_by := none }
    ∧ autoEndRow "u1" c1Act.id 7200005
        (autoEndRow "u1" c1Act.id 7200000
          ⟨"m1", "Retro", "ABC123", "u1", .ended, some 1, some "u9", 0⟩) =
      autoEndRow "u1" c1Act.id 7200005
        ⟨"m1", "Retro", "ABC123", "u1", .ended, some 1, some "u9", 0⟩ :=
  autoEnd_update_unconditional "u1" 7200000 7200005 c1Act
    ⟨"m1", "Retro", "ABC123", "u1", .ended, some 1, some "u9", 0⟩
    [⟨"m1", "Retro", "ABC123", "u1", .ended, some 1, some "u9", 0⟩]
    (by decide) (by decide) (by decide) (by decide)

/-- The four note categories of the Note interface. -/
inductive NoteType where
  | glad
  | mad
  | sad
  | action
deriving DecidableEq, Repr

/-- A note as held in local state, mirroring the Note interface of
MeetingBoard.tsx: id, content, type, created_by, created_at, updated_at,
like_count and user_liked. There is no pending flag and no placeholder
id field in this interface. -/
structure Note where
  id : String
  content : String
  type : NoteType
  created_by : String
  created_at : Nat
  updated_at : Nat
  like_count : Int
  user_liked : Bool
deriving DecidableEq, Repr

/-- A database error, keeping the two message tests the client performs:
message.includes of the word active (status violation) and of the phrase
duplicate key. -/
structure DbError where
  mentionsActive : Bool
  mentionsDuplicate : Bool
deriving DecidableEq, Repr

/-- Outcome of a durable call, supplied by the environment. -/
inductive DbResult (α : Type) where
  | ok (a : α)
  | err (e : DbError)
deriving DecidableEq, Repr

/-- User-visible effects of a mutation, in the order the code performs
them: an optimistic local update, a rollback of local state, and the two
alert flavours (the session-ended message when the error message mentions
the active status, a generic failure otherwise). -/
inductive UiEvent where
  | optimisticUpdate
  | rollback
  | alertEnded
  | alertGeneric
deriving DecidableEq, Repr

/-- The alert chosen from a database error by the shared pattern
if error.message.includes of active then the ended alert else generic. -/
def alertOf (e : DbError) : UiEvent :=
  if e.mentionsActive then .alertEnded else .alertGeneric

/-- Result of addNote: whether the durable insert was issued, the local
note list at the moment it was issued, the final local list, and the
user-visible events. -/
structure AddNoteResult where
  insertIssued : Bool
  notesAtInsert : List Note
  finalNotes : List Note
  events : List UiEvent
deriving DecidableEq, Repr

/-- addNote from MeetingBoard.tsx. Guard: missing meeting or user returns;
a locally ended meeting alerts and returns. Otherwise the durable insert
is issued at once, with the local list untouched; only on success is the
returned authoritative row appended, with like_count 0 and user_liked
false. On failure the list stays unchanged and an alert is surfaced. -/
def addNote (meeting : Option Meeting) (user : Option String)
    (notes : List Note) (outcome : DbResult Note) : AddNoteResult :=
  match meeting, user with
  | some m, some _ =>
    if m.status = .ended then ⟨false, notes, notes, [.alertEnded]⟩
    else
      match outcome with
      | .ok data =>
        ⟨true, notes, notes ++ [{ data with like_count := 0, user_liked := false }], []⟩
      | .err e => ⟨true, notes, notes, [alertOf e]⟩
  | _, _ => ⟨false, notes, notes, []⟩

/-- Concrete active meeting used in the create scenarios. -/
def c2Act : Meeting :=
  ⟨"m2", "Retro", "DEF456", "u1", .active, none, none, 0⟩

/-- Concrete authoritative row returned by a successful insert. -/
def c2Row : Note :=
  ⟨"n1", "Great sprint!", .glad, "u1", 5, 5, 0, false⟩

/-- C2 counterexample. The claim states that a create first inserts a
placeholder with a locally generated id and pending true into the local
list and only then issues the durable insert, making the item visible
locally before the durable write settles. At this concrete input (active
meeting, empty local list) addNote issues the durable insert while the
local list is still empty: no placeholder is ever inserted, so nothing is
visible locally before the durable write settles. -/
theorem addNote_no_placeholder_before_insert :
    (addNote (some c2Act) (some "u1") [] (.ok c2Row)).insertIssued = true
    ∧ (addNote (some c2Act) (some "u1") [] (.ok c2Row)).notesAtInsert = []
    ∧ (addNote (some c2Act) (some "u1") [] (.ok c2Row)).finalNotes =
        [⟨"n1", "Great sprint!", .glad, "u1", 5, 5, 0, false⟩] := by
  decide

/-- C2, amended. For a create on a locally active board, the engine issues
the durable insert first, with the local item list unchanged while the
call is in flight (there is no placeholder and the item model has no
pending flag); on success the authoritative row returned is appended to
the local list with like_count 0 and user_liked false, and on failure the
list is left unchanged and an error is surfaced. -/
theorem addNote_insert_first_then_append (m : Meeting) (u : String)
    (notes : List Note) (data : Note) (e : DbError)
    (hact : m.status = .active) :
    (addNote (some m) (some u) notes (.ok data)).insertIssued = true
    ∧ (addNote (some m) (some u) notes (.ok data)).notesAtInsert = notes
    ∧ (addNote (some m) (some u) notes (.ok data)).finalNotes =
        notes ++ [{ data with like_count := 0, user_liked := false }]
    ∧ (addNote (some m) (some u) notes (.err e)).finalNotes = notes
    ∧ (addNote (some m) (some u) notes (.err e)).events = [alertOf e] := by
  simp [addNote, hact]

/-- C2 witness: the amended statement evaluated on a concrete create. -/
theorem addNote_insert_first_then_append_witness :
    (addNote (some c2Act) (some "u1") [] (.ok c2Row)).insertIssued = true
    ∧ (addNote (some c2Act) (some "u1") [] (.ok c2Row)).notesAtInsert = []
    ∧ (addNote (some c2Act) (some "u1") [] (.ok c2Row)).finalNotes =
        [] ++ [{ c2Row with like_count := 0, user_liked := false }]
    ∧ (addNote (some c2Act) (some "u1") [] (.err ⟨false, false⟩)).finalNotes = []
    ∧ (addNote (some c2Act) (some "u1") [] (.err ⟨false, false⟩)).events =
        [alertOf ⟨false, false⟩] :=
  addNote_insert_first_then_append c2Act "u1" [] c2Row ⟨false, false⟩ (by decide)

/-- Result of a client-side mutation: whether the durable call was issued,
the final local note list, and the user-visible events in order. -/
structure ClientResult where
  networkIssued : Bool
  finalNotes : List Note
  events : List UiEvent
deriving DecidableEq, Repr

/-- updateNote from MeetingBoard.tsx. A missing or locally ended meeting
alerts and returns with no call. Otherwise the prior value is captured
with find, the note content is optimistically rewritten, and the durable
update (scoped by id and author at the store) is issued; on failure the
captured prior value is put back by id before the alert is shown. -/
def updateNote (meeting : Option Meeting) (notes : List Note)
    (nid content : String) (now : Nat) (outcome : DbResult Note) : ClientResult :=
  match meeting with
  | none => ⟨false, notes, [.alertEnded]⟩
  | some m =>
    if m.status = .ended then ⟨false, notes, [.alertEnded]⟩
    else
      let originalNote := notes.find? (fun n => n.id == nid)
      let optimistic := notes.map (fun n =>
        if n.id = nid then { n with content := content, updated_at := now } else n)
      match outcome with
      | .ok _ => ⟨true, optimistic, [.optimisticUpdate]⟩
      | .err e =>
        match originalNote with
        | some o =>
          ⟨true, optimistic.map (fun n => if n.id = nid then o else n),
            [.optimisticUpdate, .rollback, alertOf e]⟩
        | none => ⟨true, optimistic, [.optimisticUpdate, alertOf e]⟩

/-- updateNoteType from MeetingBoard.tsx: as updateNote, but rewriting the
category, and issuing a durable update scoped by id only. -/
def updateNoteType (meeting : Option Meeting) (notes : List Note)
    (nid : String) (newType : NoteType) (now : Nat)
    (outcome : DbResult Note) : ClientResult :=
  match meeting with
  | none => ⟨false, notes, [.alertEnded]⟩
  | some m =>
    if m.status = .ended then ⟨false, notes, [.alertEnded]⟩
    else
      let originalNote := notes.find? (fun n => n.id == nid)
      let optimistic := notes.map (fun n =>
        if n.id = nid then { n with type := newType, updated_at := now } else n)
      match outcome with
      | .ok _ => ⟨true, optimistic, [.optimisticUpdate]⟩
      | .err e =>
        match originalNote with
        | some o =>
          ⟨true, optimistic.map (fun n => if n.id = nid then o else n),
            [.optimisticUpdate, .rollback, alertOf e]⟩
        | none => ⟨true, optimistic, [.optimisticUpdate, alertOf e]⟩

/-- deleteNote from MeetingBoard.tsx: capture the prior value, filter the
note out optimistically, issue the durable delete scoped by id and
author; on failure append the captured prior value back before the alert
is shown. -/
def deleteNote (meeting : Option Meeting) (notes : List Note) (nid : String)
    (outcome : DbResult Unit) : ClientResult :=
  match meeting with
  | none => ⟨false, notes, [.alertEnded]⟩
  | some m =>
    if m.status = .ended then ⟨false, notes, [.alertEnded]⟩
    else
      let originalNote := notes.find? (fun n => n.id == nid)
      let optimistic := notes.filter (fun n => !(n.id == nid))
      match outcome with
      | .ok _ => ⟨true, optimistic, [.optimisticUpdate]⟩
      | .err e =>
        match originalNote with
        | some o =>
          ⟨true, optimistic ++ [o], [.optimisticUpdate, .rollback, alertOf e]⟩
        | none => ⟨true, optimistic, [.optimisticUpdate, alertOf e]⟩

/-- Rewriting the note matching nid and then putting the captured prior
value back by id restores the original list, provided ids are distinct
and the capture found the prior value. The rewriting step f preserves the
id, as the content and category updates do. -/
lemma rollback_restores (notes : List Note) (nid : String) (o : Note)
    (f : Note → Note) (hf : ∀ n, (f n).id = n.id)
    (hnodup : (notes.map Note.id).Nodup)
    (hfind : notes.find? (fun n => n.id == nid) = some o) :
    (notes.map (fun n => if n.id = nid then f n else n)).map
      (fun n => if n.id = nid then o else n) = notes := by
  have ho : o ∈ notes := List.mem_of_find?_eq_some hfind
  have hoid : o.id = nid := by
    have := List.find?_some hfind
    simpa using this
  rw [List.map_map]
  have hcongr : ∀ n ∈ notes,
      ((fun n => if n.id = nid then o else n) ∘
        (fun n => if n.id = nid then f n else n)) n = n := by
    intro n hn
    by_cases h : n.id = nid
    · have hno : n = o := List.inj_on_of_nodup_map hnodup hn ho (by rw [h, hoid])
      rw [hno]
      simp [Function.comp, hoid, hf]
    · simp [Function.comp, h]
  calc notes.map ((fun n => if n.id = nid then o else n) ∘
        (fun n => if n.id = nid then f n else n))
      = notes.map id := List.map_congr_left (by simpa using hcongr)
    _ = notes := List.map_id notes

/-- With distinct ids, the notes matching nid are exactly the one the
capture found. -/
lemma filter_eq_single (notes : List Note) (nid : String) (o : Note)
    (hnodup : (notes.map Note.id).Nodup)
    (hfind : notes.find? (fun n => n.id == nid) = some o) :
    notes.filter (fun n => n.id == nid) = [o] := by
  induction notes with
  | nil => simp at hfind
  | cons a l ih =>
    by_cases h : a.id = nid
    · have hb : (a.id == nid) = true := by simpa using h
      simp only [List.find?_cons, hb] at hfind
      have hao : a = o := by simpa using hfind
      have hnotin : ∀ x ∈ l, ¬ x.id = a.id := by
        simp at hnodup; exact hnodup.1
      have htail : l.filter (fun n => n.id == nid) = [] := by
        rw [List.filter_eq_nil_iff]
        intro n hn hq
        have hnid : n.id = nid := by simpa using hq
        exact hnotin n hn (by rw [hnid, h])
      have hoid : o.id = nid := hao ▸ h
      simp [List.filter_cons, hb, hao, htail, hoid]
    · have hb : (a.id == nid) = false := by simpa using h
      simp only [List.find?_cons, hb] at hfind
      simp at hnodup
      simp only [List.filter_cons, hb, Bool.false_eq_true, if_false]
      exact ih hnodup.2 hfind

/-- Filtering the note out and appending the captured prior value is a
permutation of the original list. -/
lemma delete_rollback_perm (notes : List Note) (nid : String) (o : Note)
    (hnodup : (notes.map Note.id).Nodup)
    (hfind : notes.find? (fun n => n.id == nid) = some o) :
    ((notes.filter (fun n => !(n.id == nid))) ++ [o]).Perm notes := by
  have hsingle := filter_eq_single notes nid o hnodup hfind
  refine List.Perm.trans List.perm_append_comm ?_
  rw [← hsingle]
  exact List.filter_append_perm _ notes

/-- C8. On a failed durable update of an existing item the captured prior
value is restored exactly (the local list returns to its pre-mutation
value for content and category updates, and to a permutation holding the
exact prior item for delete), and in every failure path the rollback
event precedes the alert. -/
theorem update_delete_failure_rolls_back (m : Meeting) (notes : List Note)
    (nid content : String) (t : NoteType) (now : Nat) (e : DbError) (o : Note)
    (hact : m.status = .active)
    (hnodup : (notes.map Note.id).Nodup)
    (hfind : notes.find? (fun n => n.id == nid) = some o) :
    (updateNote (some m) notes nid content now (.err e)).finalNotes = notes
    ∧ (updateNote (some m) notes nid content now (.err e)).events =
        [.optimisticUpdate, .rollback, alertOf e]
    ∧ (updateNoteType (some m) notes nid t now (.err e)).finalNotes = notes
    ∧ (deleteNote (some m) notes nid (.err e)).finalNotes.Perm notes
    ∧ o ∈ (deleteNote (some m) notes nid (.err e)).finalNotes
    ∧ (deleteNote (some m) notes nid (.err e)).events =
        [.optimisticUpdate, .rollback, alertOf e] := by
  refine ⟨?_, ?_, ?_, ?_, ?_, ?_⟩
  · simp only [updateNote, hact]
    rw [if_neg (by simp), hfind]
    exact rollback_restores notes nid o _ (fun n => rfl) hnodup hfind
  · simp only [updateNote, hact]
    rw [if_neg (by simp), hfind]
  · simp only [updateNoteType, hact]
    rw [if_neg (by simp), hfind]
    exact rollback_restores notes nid o _ (fun n => rfl) hnodup hfind
  · simp only [deleteNote, hact]
    rw [if_neg (by simp), hfind]
    exact delete_rollback_perm notes nid o hnodup hfind
  · simp only [deleteNote, hact]
    rw [if_neg (by simp), hfind]
    exact List.mem_append_right _ (by simp)
  · simp only [deleteNote, hact]
    rw [if_neg (by simp), hfind]

/-- Concrete durable note used in the rollback scenarios. -/
def c8Note : Note := ⟨"n8", "keep me", .sad, "u1", 3, 3, 0, false⟩

/-- C8 witness: the rollback statement evaluated on a concrete one-note
list with a generic durable failure. -/
theorem update_delete_failure_rolls_back_witness :
    (updateNote (some ⟨"m8", "Retro", "GHI789", "u1", .active, none, none, 0⟩)
        [c8Note] "n8" "edited" 9 (.err ⟨false, false⟩)).finalNotes = [c8Note]
    ∧ (updateNote (some ⟨"m8", "Retro", "GHI789", "u1", .active, none, none, 0⟩)
        [c8Note] "n8" "edited" 9 (.err ⟨false, false⟩)).events =
        [.optimisticUpdate, .rollback, alertOf ⟨false, false⟩]
    ∧ (updateNoteType (some ⟨"m8", "Retro", "GHI789", "u1", .active, none, none, 0⟩)
        [c8Note] "n8" .action 9 (.err ⟨false, false⟩)).finalNotes = [c8Note]
    ∧ (deleteNote (some ⟨"m8", "Retro", "GHI789", "u1", .active, none, none, 0⟩)
        [c8Note] "n8" (.err ⟨false, false⟩)).finalNotes.Perm [c8Note]
    ∧ c8Note ∈ (deleteNote (some ⟨"m8", "Retro", "GHI789", "u1", .active, none, none, 0⟩)
        [c8Note] "n8" (.err ⟨false, false⟩)).finalNotes
    ∧ (deleteNote (some ⟨"m8", "Retro", "GHI789", "u1", .active, none, none, 0⟩)
        [c8Note] "n8" (.err ⟨false, false⟩)).events =
        [.optimisticUpdate, .rollback, alertOf ⟨false, false⟩] :=
  update_delete_failure_rolls_back
    ⟨"m8", "Retro", "GHI789", "u1", .active, none, none, 0⟩
    [c8Note] "n8" "edited" .action 9 ⟨false, false⟩ c8Note
    (by decide) (by decide) (by decide)

/-- Result of one call to toggleNoteLike: whether the durable upsert or
delete was issued, whether the ephemeral like_change broadcast was sent,
the final local note list, and the user-visible events. -/
structure ToggleLikeResult where
  durableIssued : Bool
  broadcastSent : Bool
  finalNotes : List Note
  events : List UiEvent
deriving DecidableEq, Repr

/-- The optimistic flip toggleNoteLike applies to the target note: negate
user_liked and move the count by one in the matching direction. -/
def flipLike (n : Note) : Note :=
  { n with user_liked := !n.user_liked,
           like_count := if n.user_liked then n.like_count - 1 else n.like_count + 1 }

/-- The revert applied on a failed durable call: back to the initial liked
state, moving the count by one in the opposite direction. -/
def revertLike (initial : Bool) (n : Note) : Note :=
  { n with user_liked := initial,
           like_count := if initial then n.like_count + 1 else n.like_count - 1 }

/-- The graceful duplicate-key handling of the like path: force the liked
state and clamp the count at zero. -/
def dupLikeFix (n : Note) : Note :=
  { n with user_liked := true, like_count := max 0 n.like_count }

/-- toggleNoteLike from MeetingBoard.tsx. Guard: a missing meeting or user
returns (with the ended alert exactly when the meeting shows ended); a
note not found returns. If the note is already being processed the call
only flips the transient local state again and issues nothing. Otherwise
it flips optimistically, broadcasts the like change if a channel is
present, and issues the durable upsert (when liking) or delete (when
unliking): a duplicate-key failure of the upsert is handled as success,
any other failure reverts and alerts. -/
def toggleNoteLike (meeting : Option Meeting) (user : Option String)
    (notes : List Note) (likingNotes : List String) (hasChannel : Bool)
    (nid : String) (outcome : DbResult Unit) : ToggleLikeResult :=
  match meeting, user with
  | some m, some _ =>
    if m.status = .ended then ⟨false, false, notes, [.alertEnded]⟩
    else
      match notes.find? (fun n => n.id == nid) with
      | none => ⟨false, false, notes, []⟩
      | some note =>
        if nid ∈ likingNotes then
          ⟨false, false,
            notes.map (fun n => if n.id = nid then flipLike n else n), []⟩
        else
          let initial := note.user_liked
          let optimistic := notes.map (fun n => if n.id = nid then flipLike n else n)
          if initial then
            match outcome with
            | .ok _ => ⟨true, hasChannel, optimistic, [.optimisticUpdate]⟩
            | .err e =>
              ⟨true, hasChannel,
                optimistic.map (fun n => if n.id = nid then revertLike initial n else n),
                [.optimisticUpdate, .rollback, alertOf e]⟩
          else
            match outcome with
            | .ok _ => ⟨true, hasChannel, optimistic, [.optimisticUpdate]⟩
            | .err e =>
              if e.mentionsDuplicate then
                ⟨true, hasChannel,
                  optimistic.map (fun n => if n.id = nid then dupLikeFix n else n),
                  [.optimisticUpdate]⟩
              else
                ⟨true, hasChannel,
                  optimistic.map (fun n => if n.id = nid then revertLike initial n else n),
                  [.optimisticUpdate, .rollback, alertOf e]⟩
  | some m, none =>
    if m.status = .ended then ⟨false, false, notes, [.alertEnded]⟩
    else ⟨false, false, notes, []⟩
  | none, _ => ⟨false, false, notes, []⟩

/-- C5. Every item mutation attempted while the local board state already
shows ended is rejected before any durable call or broadcast is issued,
and the local item list is left unchanged. -/
theorem mutations_rejected_when_ended (m : Meeting) (u : Option String)
    (notes : List Note) (nid content : String) (t : NoteType) (now : Nat)
    (o1 o2 o3 : DbResult Note) (o4 o5 : DbResult Unit)
    (likingNotes : List String) (hasChannel : Bool)
    (hend : m.status = .ended) :
    (addNote (some m) u notes o1).insertIssued = false
    ∧ (addNote (some m) u notes o1).finalNotes = notes
    ∧ (updateNote (some m) notes nid content now o2).networkIssued = false
    ∧ (updateNote (some m) notes nid content now o2).finalNotes = notes
    ∧ (updateNoteType (some m) notes nid t now o3).networkIssued = false
    ∧ (updateNoteType (some m) notes nid t now o3).finalNotes = notes
    ∧ (deleteNote (some m) notes nid o4).networkIssued = false
    ∧ (deleteNote (some m) notes nid o4).finalNotes = notes
    ∧ (toggleNoteLike (some m) u notes likingNotes hasChannel nid o5).durableIssued = false
    ∧ (toggleNoteLike (some m) u notes likingNotes hasChannel nid o5).broadcastSent = false
    ∧ (toggleNoteLike (some m) u notes likingNotes hasChannel nid o5).finalNotes = notes := by
  cases u <;>
    simp [addNote, updateNote, updateNoteType, deleteNote, toggleNoteLike, hend]

/-- C5 witness: every mutation evaluated against a concrete board whose
local state shows ended. -/
theorem mutations_rejected_when_ended_witness :
    (addNote (some ⟨"m5", "Retro", "JKL012", "u1", .ended, some 9, some "u1", 0⟩)
        (some "u2") [] (.ok c2Row)).insertIssued = false
    ∧ (addNote (some ⟨"m5", "Retro", "JKL012", "u1", .ended, some 9, some "u1", 0⟩)
        (some "u2") [] (.ok c2Row)).finalNotes = []
    ∧ (updateNote (some ⟨"m5", "Retro", "JKL012", "u1", .ended, some 9, some "u1", 0⟩)
        [] "n1" "x" 9 (.ok c2Row)).networkIssued = false
    ∧ (updateNote (some ⟨"m5", "Retro", "JKL012", "u1", .ended, some 9, some "u1", 0⟩)
        [] "n1" "x" 9 (.ok c2Row)).finalNotes = []
    ∧ (updateNoteType (some ⟨"m5", "Retro", "JKL012", "u1", .ended, some 9, some "u1", 0⟩)
        [] "n1" .mad 9 (.ok c2Row)).networkIssued = false
    ∧ (updateNoteType (some ⟨"m5", "Retro", "JKL012", "u1", .ended, some 9, some "u1", 0⟩)
        [] "n1" .mad 9 (.ok c2Row)).finalNotes = []
    ∧ (deleteNote (some ⟨"m5", "Retro", "JKL012", "u1", .ended, some 9, some "u1", 0⟩)
        [] "n1" (.ok ())).networkIssued = false
    ∧ (deleteNote (some ⟨"m5", "Retro", "JKL012", "u1", .ended, some 9, some "u1", 0⟩)
        [] "n1" (.ok ())).finalNotes = []
    ∧ (toggleNoteLike (some ⟨"m5", "Retro", "JKL012", "u1", .ended, some 9, some "u1", 0⟩)
        (some "u2") [] [] true "n1" (.ok ())).durableIssued = false
    ∧ (toggleNoteLike (some ⟨"m5", "Retro", "JKL012", "u1", .ended, some 9, some "u1", 0⟩)
        (some "u2") [] [] true "n1" (.ok ())).broadcastSent = false
    ∧ (toggleNoteLike (some ⟨"m5", "Retro", "JKL012", "u1", .ended, some 9, some "u1", 0⟩)
        (some "u2") [] [] true "n1" (.ok ())).finalNotes = [] :=
  mutations_rejected_when_ended
    ⟨"m5", "Retro", "JKL012", "u1", .ended, some 9, some "u1", 0⟩
    (some "u2") [] "n1" "x" .mad 9 (.ok c2Row) (.ok c2Row) (.ok c2Row)
    (.ok ()) (.ok ()) [] true (by decide)

/-- For a note transformer that preserves ids, searching the mapped list
for an id finds the transform of what the search found before. -/
lemma find?_map_preserving (g : Note → Note) (hg : ∀ n, (g n).id = n.id)
    (nid : String) (notes : List Note) :
    (notes.map g).find? (fun n => n.id == nid) =
      (notes.find? (fun n => n.id == nid)).map g := by
  induction notes with
  | nil => rfl
  | cons a l ih =>
    simp only [List.map_cons, List.find?_cons, hg]
    cases hb : (a.id == nid)
    · simpa [hb] using ih
    · simp [hb]

/-- C7. A like attempt whose durable upsert fails with a duplicate-key
error is treated as success: the only user-visible event is the
optimistic update (no alert of either kind, no rollback), and the local
state shows the item as liked by the user, with the optimistic count
retained and clamped at zero. -/
theorem duplicate_like_treated_as_success (m : Meeting) (u : String)
    (notes : List Note) (likingNotes : List String) (hasChannel : Bool)
    (nid : String) (note : Note) (e : DbError)
    (hact : m.status = .active)
    (hfind : notes.find? (fun n => n.id == nid) = some note)
    (hproc : nid ∉ likingNotes)
    (hunliked : note.user_liked = false)
    (hdup : e.mentionsDuplicate = true) :
    (toggleNoteLike (some m) (some u) notes likingNotes hasChannel nid
        (.err e)).events = [.optimisticUpdate]
    ∧ (toggleNoteLike (some m) (some u) notes likingNotes hasChannel nid
        (.err e)).finalNotes.find? (fun n => n.id == nid) =
      some { note with user_liked := true,
                       like_count := max 0 (note.like_count + 1) } := by
  have hstep : (toggleNoteLike (some m) (some u) notes likingNotes hasChannel nid
      (.err e)) =
      ⟨true, hasChannel,
        (notes.map (fun n => if n.id = nid then flipLike n else n)).map
          (fun n => if n.id = nid then dupLikeFix n else n),
        [.optimisticUpdate]⟩ := by
    simp only [toggleNoteLike, hact]
    rw [if_neg (by simp), hfind]
    simp only [hunliked]
    rw [if_neg hproc]
    simp [hdup]
  refine ⟨by rw [hstep], ?_⟩
  rw [hstep]
  have hflip : ∀ n : Note, ((fun n => if n.id = nid then flipLike n else n) n).id = n.id := by
    intro n; by_cases h : n.id = nid <;> simp [h, flipLike]
  have hfix : ∀ n : Note, ((fun n => if n.id = nid then dupLikeFix n else n) n).id = n.id := by
    intro n; by_cases h : n.id = nid <;> simp [h, dupLikeFix]
  have hnoteid : note.id = nid := by
    have := List.find?_some hfind
    simpa using this
  rw [find?_map_preserving _ hfix, find?_map_preserving _ hflip, hfind]
  simp [flipLike, dupLikeFix, hnoteid, hunliked]

/-- C7 witness: the duplicate-key like path evaluated on a concrete note
not yet liked by the user. -/
theorem duplicate_like_treated_as_success_witness :
    (toggleNoteLike (some ⟨"m7", "Retro", "MNO345", "u1", .active, none, none, 0⟩)
        (some "u2") [⟨"n7", "nice", .glad, "u1", 1, 1, 0, false⟩] [] true "n7"
        (.err ⟨false, true⟩)).events = [.optimisticUpdate]
    ∧ (toggleNoteLike (some ⟨"m7", "Retro", "MNO345", "u1", .active, none, none, 0⟩)
        (some "u2") [⟨"n7", "nice", .glad, "u1", 1, 1, 0, false⟩] [] true "n7"
        (.err ⟨false, true⟩)).finalNotes.find? (fun n => n.id == "n7") =
      some { (⟨"n7", "nice", .glad, "u1", 1, 1, 0, false⟩ : Note) with
               user_liked := true,
               like_count := max 0 ((0 : Int) + 1) } :=
  duplicate_like_treated_as_success
    ⟨"m7", "Retro", "MNO345", "u1", .active, none, none, 0⟩ "u2"
    [⟨"n7", "nice", .glad, "u1", 1, 1, 0, false⟩] [] true "n7"
    ⟨"n7", "nice", .glad, "u1", 1, 1, 0, false⟩ ⟨false, true⟩
    (by decide) (by decide) (by decide) (by decide) (by decide)

/-- Transient per-note, per-user state of the like toggle path: whether
the reaction tuple is present in the durable store, the local liked flag
the user sees, whether the note is marked as being processed (the
likingNotes set), and the in-flight durable intention. -/
structure ToggleState where
  dbLiked : Bool
  localLiked : Bool
  processing : Bool
  inflight : Option Bool
deriving DecidableEq, Repr

/-- Events of the like toggle dynamics: a user toggle attempt, and the
settling of the in-flight durable call followed by the deferred refresh
from the store and the release of the processing mark. -/
inductive ToggleEvent where
  | attempt
  | settle
deriving DecidableEq, Repr

/-- One step of the toggleNoteLike dynamics. An attempt arriving while
the note is processing only flips the transient local flag: the queued
toggle is never issued to the store. A fresh attempt flips locally,
marks the note processing and puts the durable call for the new state in
flight. Settling applies the in-flight intention to the store (the
upsert makes the tuple present, a duplicate-key failure included; the
delete makes it absent), then the deferred fetchNoteWithLikes refresh
overwrites the local flag with the stored one and the processing mark is
released. -/
def toggleStep (s : ToggleState) : ToggleEvent → ToggleState
  | .attempt =>
    if s.processing then { s with localLiked := !s.localLiked }
    else
      { s with localLiked := !s.localLiked, processing := true,
               inflight := some (!s.localLiked) }
  | .settle =>
    match s.inflight with
    | none => s
    | some target => ⟨target, target, false, none⟩

/-- The toggle dynamics run over a list of events. -/
def toggleRun (s : ToggleState) (es : List ToggleEvent) : ToggleState :=
  es.foldl toggleStep s

/-- A processing window of k toggle attempts: the first attempt opens it,
the remaining attempts arrive while the durable call is in flight, and
the window closes when the call settles. -/
def window (k : Nat) : List ToggleEvent :=
  List.replicate k .attempt ++ [.settle]

/-- A fully settled run of toggle attempts grouped into processing
windows. -/
def schedule (ks : List Nat) : List ToggleEvent :=
  (ks.map window).flatten

/-- C3 counterexample. The claim states that after any finite sequence of
toggle attempts has fully settled, the item is liked exactly when the
number of attempts is odd, however the attempts overlapped in-flight
operations. Concretely: starting not liked, two attempts inside one
processing window (two clicks during one in-flight durable call) contain
an even number of attempts, yet the settled state is liked, because the
second attempt only flips the transient local flag and is never issued
to the store, and the deferred refresh restores the stored state. -/
theorem two_rapid_toggles_settle_liked :
    (schedule [2]).count ToggleEvent.attempt = 2
    ∧ (toggleRun ⟨false, false, false, none⟩ (schedule [2])).localLiked = true
    ∧ (toggleRun ⟨false, false, false, none⟩ (schedule [2])).dbLiked = true := by
  decide

/-- Attempts arriving while a durable call is in flight keep the
processing mark, the in-flight intention and the stored state. -/
lemma toggleRun_attempts_inflight (j : Nat) (p : ToggleState)
    (hp : p.processing = true) :
    (toggleRun p (List.replicate j .attempt)).processing = true
    ∧ (toggleRun p (List.replicate j .attempt)).inflight = p.inflight
    ∧ (toggleRun p (List.replicate j .attempt)).dbLiked = p.dbLiked := by
  induction j generalizing p with
  | zero => exact ⟨hp, rfl, rfl⟩
  | succ j ih =>
    have hstep : toggleStep p .attempt = { p with localLiked := !p.localLiked } := by
      simp [toggleStep, hp]
    have : toggleRun p (List.replicate (j + 1) .attempt) =
        toggleRun { p with localLiked := !p.localLiked } (List.replicate j .attempt) := by
      rw [List.replicate_succ]
      simp only [toggleRun, List.foldl_cons, hstep]
    rw [this]
    exact ih _ hp

/-- One non-empty processing window settles to the flip of the local flag
at its start, in both the store and the local state. -/
lemma toggleRun_window (k : Nat) (hk : k ≠ 0) (s : ToggleState)
    (hs : s.processing = false) :
    toggleRun s (window k) = ⟨!s.localLiked, !s.localLiked, false, none⟩ := by
  obtain ⟨j, rfl⟩ : ∃ j, k = j + 1 :=
    ⟨k - 1, (Nat.succ_pred_eq_of_pos (Nat.pos_of_ne_zero hk)).symm⟩
  have hstep : toggleStep s .attempt =
      { s with localLiked := !s.localLiked, processing := true,
               inflight := some (!s.localLiked) } := by
    simp [toggleStep, hs]
  have hsplit : toggleRun s (window (j + 1)) =
      toggleStep (toggleRun (toggleStep s .attempt) (List.replicate j .attempt)) .settle := by
    simp only [window, List.replicate_succ, List.cons_append, toggleRun,
      List.foldl_cons, List.foldl_append, List.foldl_nil]
  rw [hsplit, hstep]
  have hmid := toggleRun_attempts_inflight j
    { s with localLiked := !s.localLiked, processing := true,
             inflight := some (!s.localLiked) } rfl
  set mid := toggleRun
    { s with localLiked := !s.localLiked, processing := true,
             inflight := some (!s.localLiked) } (List.replicate j .attempt) with hmiddef
  have hinf : mid.inflight = some (!s.localLiked) := hmid.2.1
  simp [toggleStep, hinf]

/-- A settled schedule of windows flips the liked state once per window:
the final state is synchronised and equals the starting flag negated
exactly when the number of windows is odd. -/
lemma toggleRun_schedule (ks : List Nat) (s : ToggleState)
    (h0 : 0 ∉ ks) (hs : s.processing = false)
    (hsync : s.dbLiked = s.localLiked) (hinf : s.inflight = none) :
    toggleRun s (schedule ks) =
      ⟨if Even ks.length then s.localLiked else !s.localLiked,
       if Even ks.length then s.localLiked else !s.localLiked,
       false, none⟩ := by
  induction ks generalizing s with
  | nil =>
    obtain ⟨d, l, p, i⟩ := s
    simp only at hs hsync hinf
    subst hs hsync hinf
    simp [toggleRun, schedule]
  | cons k ks ih =>
    have hk : k ≠ 0 := fun h => h0 (h ▸ List.mem_cons_self k ks)
    have h0t : 0 ∉ ks := fun h => h0 (List.mem_cons_of_mem k h)
    have hsplit : toggleRun s (schedule (k :: ks)) =
        toggleRun (toggleRun s (window k)) (schedule ks) := by
      simp only [schedule, List.map_cons, List.flatten_cons, toggleRun,
        List.foldl_append]
    rw [hsplit, toggleRun_window k hk s hs]
    rw [ih ⟨!s.localLiked, !s.localLiked, false, none⟩ h0t rfl rfl rfl]
    rcases Nat.even_or_odd ks.length with he | ho
    · have hne : ¬ Even (ks.length + 1) := by
        rw [Nat.even_add_one]; exact fun hcon => hcon he
      simp [he, hne, List.length_cons]
    · have hno : ¬ Even ks.length := Nat.not_even_iff_odd.mpr ho
      have hyes : Even (ks.length + 1) := Nat.even_add_one.mpr hno
      simp [hno, hyes, List.length_cons]

/-- The number of attempts in a schedule is the total over its windows. -/
lemma schedule_count_attempts (ks : List Nat) :
    (schedule ks).count ToggleEvent.attempt = ks.sum := by
  induction ks with
  | nil => rfl
  | cons k ks ih =>
    have : schedule (k :: ks) = window k ++ schedule ks := by
      simp [schedule]
    rw [this, List.count_append, ih]
    have : (window k).count ToggleEvent.attempt = k := by
      simp [window, List.count_append, List.count_replicate_self]
    rw [this, List.sum_cons]

/-- C3, amended. Once a finite sequence of toggle attempts, grouped into
non-empty processing windows, has fully settled, the item is liked by the
user exactly when the number of processing windows is odd, not the
number of attempts: attempts that arrive while a durable call is in
flight only flip the transient local flag and are never issued, so each
window contributes one effective flip. When no attempts overlap (every
window holds exactly one attempt) the number of windows equals the
number of attempts, and the odd/even property of the claim holds. -/
theorem toggle_settles_by_window_parity (ks : List Nat) (n : Nat) (s : ToggleState)
    (h0 : 0 ∉ ks) (hs : s.processing = false)
    (hsync : s.dbLiked = s.localLiked) (hinf : s.inflight = none) :
    (toggleRun s (schedule ks)).localLiked =
      (if Even ks.length then s.localLiked else !s.localLiked)
    ∧ (toggleRun s (schedule ks)).dbLiked = (toggleRun s (schedule ks)).localLiked
    ∧ (schedule ks).count ToggleEvent.attempt = ks.sum
    ∧ (toggleRun s (schedule (List.replicate n 1))).localLiked =
      (if Even n then s.localLiked else !s.localLiked)
    ∧ (schedule (List.replicate n 1)).count ToggleEvent.attempt = n := by
  have hmain := toggleRun_schedule ks s h0 hs hsync hinf
  have hrep0 : 0 ∉ List.replicate n 1 := by
    intro h
    simpa using List.eq_of_mem_replicate h
  have hseq := toggleRun_schedule (List.replicate n 1) s hrep0 hs hsync hinf
  refine ⟨by rw [hmain], by rw [hmain], schedule_count_attempts ks, ?_, ?_⟩
  · rw [hseq, List.length_replicate]
  · rw [schedule_count_attempts, List.sum_replicate, smul_eq_mul, Nat.mul_one]

/-- C3 witness: three sequential settled toggles end liked, and a window
of two overlapping attempts counts as one flip. -/
theorem toggle_settles_by_window_parity_witness :
    (toggleRun ⟨false, false, false, none⟩ (schedule [2, 1])).localLiked =
      (if Even ([2, 1] : List Nat).length then false else !false)
    ∧ (toggleRun ⟨false, false, false, none⟩ (schedule [2, 1])).dbLiked =
      (toggleRun ⟨false, false, false, none⟩ (schedule [2, 1])).localLiked
    ∧ (schedule [2, 1]).count ToggleEvent.attempt = ([2, 1] : List Nat).sum
    ∧ (toggleRun ⟨false, false, false, none⟩ (schedule (List.replicate 3 1))).localLiked =
      (if Even 3 then false else !false)
    ∧ (schedule (List.replicate 3 1)).count ToggleEvent.attempt = 3 :=
  toggle_settles_by_window_parity [2, 1] 3 ⟨false, false, false, none⟩
    (by decide) (by decide) (by decide) (by decide)

/-- fetchNoteWithLikes from MeetingBoard.tsx: the notified row enriched
with the aggregate like count and whether the current user liked it; the
identity fields are kept. -/
def fetchNoteWithLikes (n : Note) (cnt : Int) (liked : Bool) : Note :=
  { n with like_count := cnt, user_liked := liked }

/-- The INSERT notification handler wired in subscribeToNotes: a
notification for a note created by the current user is skipped (the
optimistic path already added it); a note whose id is already present
locally is skipped; any other note is fetched with its likes and
appended. -/
def handleNoteInsert (selfId : String) (notes : List Note) (newNote : Note)
    (cnt : Int) (liked : Bool) : List Note :=
  if newNote.created_by = selfId then notes
  else if notes.any (fun n => n.id == newNote.id) then notes
  else notes ++ [fetchNoteWithLikes newNote cnt liked]

/-- C6. Consuming an authoritative insert notification keeps the local
list free of duplicate ids: a notification for a note of the current
user leaves the list unchanged, a notification whose id is already
present leaves it unchanged, and a local insert followed by its own
authoritative notification yields exactly one visible item with that
id. -/
theorem insert_notification_no_duplicates (selfId : String) (cnt : Int)
    (liked : Bool) (notes : List Note) (nOwn nDup nAny data : Note) (m : Meeting)
    (hnodup : (notes.map Note.id).Nodup)
    (hOwn : nOwn.created_by = selfId)
    (hDup : nDup.id ∈ notes.map Note.id)
    (hdataBy : data.created_by = selfId)
    (hdataNew : data.id ∉ notes.map Note.id)
    (hact : m.status = .active) :
    ((handleNoteInsert selfId notes nAny cnt liked).map Note.id).Nodup
    ∧ handleNoteInsert selfId notes nOwn cnt liked = notes
    ∧ handleNoteInsert selfId
        ((addNote (some m) (some selfId) notes (.ok data)).finalNotes) data cnt liked =
      (addNote (some m) (some selfId) notes (.ok data)).finalNotes
    ∧ handleNoteInsert selfId notes nDup cnt liked = notes
    ∧ ((addNote (some m) (some selfId) notes (.ok data)).finalNotes).countP
        (fun n => n.id == data.id) = 1 := by
  have hfinal : (addNote (some m) (some selfId) notes (.ok data)).finalNotes =
      notes ++ [{ data with like_count := 0, user_liked := false }] := by
    simp [addNote, hact]
  refine ⟨?_, ?_, ?_, ?_, ?_⟩
  · by_cases h1 : nAny.created_by = selfId
    · simpa [handleNoteInsert, h1] using hnodup
    · cases h2 : notes.any (fun n => n.id == nAny.id) with
      | true => simpa [handleNoteInsert, h1, h2] using hnodup
      | false =>
        have hnotin : nAny.id ∉ notes.map Note.id := by
          intro hmem
          obtain ⟨n, hn, hid⟩ := List.mem_map.mp hmem
          have : notes.any (fun n => n.id == nAny.id) = true :=
            List.any_eq_true.mpr ⟨n, hn, by simpa using hid⟩
          rw [h2] at this
          exact Bool.false_ne_true this
        simp [handleNoteInsert, h1, h2, fetchNoteWithLikes, List.nodup_append,
          hnodup, hnotin]
  · simp [handleNoteInsert, hOwn]
  · rw [hfinal]
    simp [handleNoteInsert, hdataBy]
  · have hany : notes.any (fun n => n.id == nDup.id) = true := by
      obtain ⟨n, hn, hid⟩ := List.mem_map.mp hDup
      exact List.any_eq_true.mpr ⟨n, hn, by simpa using hid⟩
    by_cases h1 : nDup.created_by = selfId
    · simp [handleNoteInsert, h1]
    · simp [handleNoteInsert, h1, hany]
  · rw [hfinal, List.countP_append]
    have hzero : notes.countP (fun n => n.id == data.id) = 0 := by
      rw [List.countP_eq_zero]
      intro n hn hb
      exact hdataNew (List.mem_map.mpr ⟨n, hn, by simpa using hb⟩)
    rw [hzero]
    simp

/-- C6 witness: a self insert followed by its own notification, with a
duplicate and a foreign notification, on a one-note list. -/
theorem insert_notification_no_duplicates_witness :
    ((handleNoteInsert "u1" [⟨"n6", "old", .mad, "u2", 1, 1, 0, false⟩]
        ⟨"n9", "new", .glad, "u3", 2, 2, 0, false⟩ 0 false).map Note.id).Nodup
    ∧ handleNoteInsert "u1" [⟨"n6", "old", .mad, "u2", 1, 1, 0, false⟩]
        ⟨"n9", "mine", .glad, "u1", 2, 2, 0, false⟩ 0 false =
      [⟨"n6", "old", .mad, "u2", 1, 1, 0, false⟩]
    ∧ handleNoteInsert "u1"
        ((addNote (some ⟨"m6", "Retro", "STU901", "u1", .active, none, none, 0⟩)
            (some "u1") [⟨"n6", "old", .mad, "u2", 1, 1, 0, false⟩]
            (.ok ⟨"n9", "mine", .glad, "u1", 2, 2, 0, false⟩)).finalNotes)
        ⟨"n9", "mine", .glad, "u1", 2, 2, 0, false⟩ 0 false =
      (addNote (some ⟨"m6", "Retro", "STU901", "u1", .active, none, none, 0⟩)
          (some "u1") [⟨"n6", "old", .mad, "u2", 1, 1, 0, false⟩]
          (.ok ⟨"n9", "mine", .glad, "u1", 2, 2, 0, false⟩)).finalNotes
    ∧ handleNoteInsert "u1" [⟨"n6", "old", .mad, "u2", 1, 1, 0, false⟩]
        ⟨"n6", "old", .mad, "u2", 1, 1, 0, false⟩ 0 false =
      [⟨"n6", "old", .mad, "u2", 1, 1, 0, false⟩]
    ∧ ((addNote (some ⟨"m6", "Retro", "STU901", "u1", .active, none, none, 0⟩)
          (some "u1") [⟨"n6", "old", .mad, "u2", 1, 1, 0, false⟩]
          (.ok ⟨"n9", "mine", .glad, "u1", 2, 2, 0, false⟩)).finalNotes).countP
        (fun n => n.id == "n9") = 1 :=
  insert_notification_no_duplicates "u1" 0 false
    [⟨"n6", "old", .mad, "u2", 1, 1, 0, false⟩]
    ⟨"n9", "mine", .glad, "u1", 2, 2, 0, false⟩
    ⟨"n6", "old", .mad, "u2", 1, 1, 0, false⟩
    ⟨"n9", "new", .glad, "u3", 2, 2, 0, false⟩
    ⟨"n9", "mine", .glad, "u1", 2, 2, 0, false⟩
    ⟨"m6", "Retro", "STU901", "u1", .active, none, none, 0⟩
    (by decide) (by decide) (by decide) (by decide) (by decide) (by decide)

/-- The signed count delta of a like_change broadcast. -/
def likeDelta (liked : Bool) : Int := if liked then 1 else -1

/-- Per-note effect of a received like_change broadcast: the matching
note takes the delta with a floor of zero, via Math.max. -/
def likeBroadcastRow (nid : String) (liked : Bool) (n : Note) : Note :=
  if n.id = nid then
    { n with like_count := max 0 (n.like_count + likeDelta liked) }
  else n

/-- The like_change broadcast handler wired in subscribeToNotes: a
broadcast from the current user is skipped; a broadcast for a note not
present locally is skipped; otherwise the delta is applied to the local
count with a floor of zero. -/
def applyLikeBroadcast (selfId : String) (notes : List Note)
    (nid uid : String) (liked : Bool) : List Note :=
  if uid = selfId then notes
  else if (notes.find? (fun n => n.id == nid)).isNone then notes
  else notes.map (likeBroadcastRow nid liked)

/-- C10. Applying the delta of a received like-change broadcast never
produces a negative local count: if every count was non-negative it
stays so, and the matching note takes exactly the clamped value, so an
unlike delta on a count of zero leaves zero. -/
theorem like_broadcast_never_negative (selfId nid uid : String) (liked : Bool)
    (notes : List Note) (n : Note)
    (hall : notes.all (fun x => decide (0 ≤ x.like_count)) = true)
    (hid : n.id = nid) :
    (applyLikeBroadcast selfId notes nid uid liked).all
      (fun x => decide (0 ≤ x.like_count)) = true
    ∧ (likeBroadcastRow nid liked n).like_count =
        max 0 (n.like_count + likeDelta liked)
    ∧ 0 ≤ (likeBroadcastRow nid liked n).like_count := by
  refine ⟨?_, by simp [likeBroadcastRow, hid], ?_⟩
  · by_cases h1 : uid = selfId
    · simpa [applyLikeBroadcast, h1] using hall
    · cases h2 : (notes.find? (fun n => n.id == nid)).isNone with
      | true => simpa [applyLikeBroadcast, h1, h2] using hall
      | false =>
        simp only [applyLikeBroadcast, h1, h2, if_neg, ite_false,
          Bool.false_eq_true, if_false]
        rw [List.all_eq_true] at hall ⊢
        intro x hx
        obtain ⟨y, hy, hyx⟩ := List.mem_map.mp hx
        by_cases h3 : y.id = nid
        · rw [← hyx]
          simp [likeBroadcastRow, h3]
        · rw [← hyx]
          simpa [likeBroadcastRow, h3] using hall y hy
  · simp [likeBroadcastRow, hid]

/-- C10 witness: an unlike broadcast for a note whose local count is
already zero leaves the count at zero. -/
theorem like_broadcast_never_negative_witness :
    (applyLikeBroadcast "u1" [⟨"n0", "zero", .sad, "u2", 1, 1, 0, false⟩]
        "n0" "u2" false).all (fun x => decide (0 ≤ x.like_count)) = true
    ∧ (likeBroadcastRow "n0" false
        ⟨"n0", "zero", .sad, "u2", 1, 1, 0, false⟩).like_count =
      max 0 ((0 : Int) + likeDelta false)
    ∧ 0 ≤ (likeBroadcastRow "n0" false
        ⟨"n0", "zero", .sad, "u2", 1, 1, 0, false⟩).like_count :=
  like_broadcast_never_negative "u1" "n0" "u2" false
    [⟨"n0", "zero", .sad, "u2", 1, 1, 0, false⟩]
    ⟨"n0", "zero", .sad, "u2", 1, 1, 0, false⟩
    (by decide) (by decide)

/-- The payload a typing indicator stores locally: the sender and the
arrival timestamp (Date.now at receipt). -/
structure TypingInfo where
  userId : String
  userName : String
  timestamp : Nat
deriving DecidableEq, Repr

/-- Lookup in a string-keyed association list. -/
def keyLookup {α : Type} (k : String) : List (String × α) → Option α
  | [] => none
  | (k2, v) :: rest => if k2 = k then some v else keyLookup k rest

/-- Removal of a key from a string-keyed association list (the delete on
the typingIndicators record and the typingTimeoutRef map). -/
def keyErase {α : Type} (k : String) (m : List (String × α)) : List (String × α) :=
  m.filter (fun p => !(p.1 == k))

/-- Insertion of a binding, replacing any previous one for the key. -/
def keyInsert {α : Type} (k : String) (v : α) (m : List (String × α)) :
    List (String × α) :=
  (k, v) :: keyErase k m

/-- Client state of the typing indicator machinery: the indicator map
keyed by note id, and the armed expiry timers recorded as the times
their timeouts will fire. -/
structure TypingState where
  indicators : List (String × TypingInfo)
  timers : List (String × Nat)
deriving DecidableEq, Repr

/-- Events of the typing machinery: a broadcast typing signal for a note
(isTyping true for typing, false for the explicit stopped signal),
received at a time, and the firing of an armed expiry timeout. -/
inductive TypingEvent where
  | typing (noteId userId userName : String) (isTyping : Bool) (time : Nat)
  | fire (noteId : String) (time : Nat)
deriving DecidableEq, Repr

/-- The note id an event concerns. -/
def eventNote : TypingEvent → String
  | .typing nid _ _ _ _ => nid
  | .fire nid _ => nid

/-- One step of the typing broadcast handler in subscribeToNotes. A
signal from the current user is ignored. A typing signal stores the
indicator and re-arms the 3000 millisecond expiry timeout, clearing any
previous one; a stopped signal removes the indicator and clears the
timeout. A timeout fires only if it is still the armed one for its note
(clearTimeout cancels a superseded timeout), and then removes the
indicator. -/
def typingStep (selfId : String) (s : TypingState) : TypingEvent → TypingState
  | .typing nid uid uname isTyping t =>
    if uid = selfId then s
    else if isTyping then
      ⟨keyInsert nid ⟨uid, uname, t⟩ s.indicators, keyInsert nid (t + 3000) s.timers⟩
    else
      ⟨keyErase nid s.indicators, keyErase nid s.timers⟩
  | .fire nid t =>
    if keyLookup nid s.timers = some t then
      ⟨keyErase nid s.indicators, keyErase nid s.timers⟩
    else s

/-- The typing machinery run over a list of events. -/
def typingRun (selfId : String) (s : TypingState) (es : List TypingEvent) :
    TypingState :=
  es.foldl (typingStep selfId) s

lemma keyLookup_insert_self {α : Type} (k : String) (v : α)
    (m : List (String × α)) : keyLookup k (keyInsert k v m) = some v := by
  simp [keyInsert, keyLookup]

lemma keyLookup_erase_ne {α : Type} (k k2 : String) (h : k2 ≠ k)
    (m : List (String × α)) : keyLookup k (keyErase k2 m) = keyLookup k m := by
  induction m with
  | nil => rfl
  | cons p rest ih =>
    obtain ⟨a, b⟩ := p
    by_cases hp : a = k2
    · have hak : ¬ a = k := fun hc => h (hp.symm.trans hc)
      have hb : (a == k2) = true := by simpa using hp
      have hrhs : keyLookup k ((a, b) :: rest) = keyLookup k rest := by
        simp [keyLookup, hak]
      rw [hrhs]
      simp only [keyErase, List.filter_cons, hb, Bool.not_true,
        Bool.false_eq_true, if_false]
      simpa [keyErase] using ih
    · have hb : (a == k2) = false := by simpa using hp
      simp only [keyErase, List.filter_cons, hb, Bool.not_false, if_true]
      by_cases hak : a = k
      · simp [keyLookup, hak]
      · simp only [keyLookup, hak, if_false]
        simpa [keyErase] using ih

lemma keyLookup_erase_self {α : Type} (k : String) (m : List (String × α)) :
    keyLookup k (keyErase k m) = none := by
  induction m with
  | nil => rfl
  | cons p rest ih =>
    by_cases hp : p.1 = k
    · simpa [keyErase, List.filter_cons, hp] using ih
    · simp only [keyErase, List.filter_cons] at *
      simp [hp, keyLookup, ih]

lemma keyLookup_insert_ne {α : Type} (k k2 : String) (h : k2 ≠ k) (v : α)
    (m : List (String × α)) : keyLookup k (keyInsert k2 v m) = keyLookup k m := by
  simp [keyInsert, keyLookup, h, keyLookup_erase_ne k k2 h m]

/-- A step for an event of a different note leaves the lookups of this
note untouched. -/
lemma typingStep_other (selfId nid : String) (s : TypingState) (e : TypingEvent)
    (h : eventNote e ≠ nid) :
    keyLookup nid (typingStep selfId s e).indicators =
      keyLookup nid s.indicators
    ∧ keyLookup nid (typingStep selfId s e).timers = keyLookup nid s.timers := by
  cases e with
  | typing nid2 uid uname isTyping t =>
    have hne : nid2 ≠ nid := h
    by_cases h1 : uid = selfId
    · simp [typingStep, h1]
    · cases isTyping with
      | true =>
        simp [typingStep, h1, keyLookup_insert_ne nid nid2 hne]
      | false =>
        simp [typingStep, h1, keyLookup_erase_ne nid nid2 hne]
  | fire nid2 t =>
    have hne : nid2 ≠ nid := h
    by_cases h1 : keyLookup nid2 s.timers = some t
    · simp [typingStep, h1, keyLookup_erase_ne nid nid2 hne]
    · simp [typingStep, h1]

/-- A run of events none of which concerns this note leaves the lookups
of this note untouched. -/
lemma typingRun_other (selfId nid : String) (s : TypingState)
    (es : List TypingEvent)
    (hes : es.all (fun e => !(eventNote e == nid)) = true) :
    keyLookup nid (typingRun selfId s es).indicators =
      keyLookup nid s.indicators
    ∧ keyLookup nid (typingRun selfId s es).timers = keyLookup nid s.timers := by
  induction es generalizing s with
  | nil => exact ⟨rfl, rfl⟩
  | cons e rest ih =>
    rw [List.all_cons, Bool.and_eq_true] at hes
    have hne : eventNote e ≠ nid := by simpa using hes.1
    have hstep := typingStep_other selfId nid s e hne
    have hrest := ih (typingStep selfId s e) hes.2
    exact ⟨hrest.1.trans hstep.1, hrest.2.trans hstep.2⟩

/-- C9. A typing signal from a peer displays the indicator and arms the
3000 millisecond expiry; if no signal for the same note (neither a
refreshing typing signal nor an explicit stopped signal) is processed
before the armed timeout fires at 3000 milliseconds later, the firing
removes the indicator from the local map. -/
theorem typing_indicator_expires (selfId nid uid uname : String) (t : Nat)
    (s : TypingState) (es : List TypingEvent)
    (hself : uid ≠ selfId)
    (hes : es.all (fun e => !(eventNote e == nid)) = true) :
    keyLookup nid
      ((typingStep selfId s (.typing nid uid uname true t)).indicators) =
      some ⟨uid, uname, t⟩
    ∧ keyLookup nid ((typingRun selfId
        (typingStep selfId s (.typing nid uid uname true t))
        (es ++ [.fire nid (t + 3000)])).indicators) = none := by
  have hdisp : (typingStep selfId s (.typing nid uid uname true t)) =
      ⟨keyInsert nid ⟨uid, uname, t⟩ s.indicators,
       keyInsert nid (t + 3000) s.timers⟩ := by
    simp [typingStep, hself]
  refine ⟨by rw [hdisp]; exact keyLookup_insert_self nid _ _, ?_⟩
  rw [hdisp]
  set s1 : TypingState :=
    ⟨keyInsert nid ⟨uid, uname, t⟩ s.indicators,
     keyInsert nid (t + 3000) s.timers⟩ with hs1
  have hsplit : typingRun selfId s1 (es ++ [.fire nid (t + 3000)]) =
      typingStep selfId (typingRun selfId s1 es) (.fire nid (t + 3000)) := by
    simp [typingRun, List.foldl_append]
  rw [hsplit]
  have hmid := typingRun_other selfId nid s1 es hes
  have htimer : keyLookup nid (typingRun selfId s1 es).timers = some (t + 3000) := by
    rw [hmid.2, hs1]
    exact keyLookup_insert_self nid _ _
  simp only [typingStep, htimer, if_pos]
  exact keyLookup_erase_self nid _

/-- C9 witness: a typing signal at time 100, an unrelated signal for
another note in between, and the timeout firing at 3100 removes the
indicator. -/
theorem typing_indicator_expires_witness :
    keyLookup "n9"
      ((typingStep "u1" ⟨[], []⟩
        (.typing "n9" "u2" "Pat" true 100)).indicators) =
      some ⟨"u2", "Pat", 100⟩
    ∧ keyLookup "n9" ((typingRun "u1"
        (typingStep "u1" ⟨[], []⟩ (.typing "n9" "u2" "Pat" true 100))
        ([.typing "other" "u3" "Sam" true 1100] ++
          [.fire "n9" (100 + 3000)])).indicators) = none :=
  typing_indicator_expires "u1" "n9" "u2" "Pat" 100 ⟨[], []⟩
    [.typing "other" "u3" "Sam" true 1100] (by decide) (by decide)

/-- A row of the notes table as the durable store holds it. -/
structure NoteRow where
  id : String
  meeting_id : String
  content : String
  type : NoteType
  created_by : String
deriving DecidableEq, Repr

/-- The EXISTS subquery both UPDATE policies of the collaborative note
moving migration use: some meetings row with this id has status
active. -/
def meetingActiveIn (meetings : List Meeting) (mid : String) : Bool :=
  meetings.any (fun m => m.id == mid && m.status == .active)

/-- Policy Note creators can update content: the caller authored the row
and its meeting is active. -/
def creatorUpdatePolicy (caller : String) (meetings : List Meeting)
    (r : NoteRow) : Bool :=
  (r.created_by == caller) && meetingActiveIn meetings r.meeting_id

/-- Policy Anyone can move notes between sections: any authenticated
caller, provided only that the meeting is active. -/
def moveNotesPolicy (meetings : List Meeting) (r : NoteRow) : Bool :=
  meetingActiveIn meetings r.meeting_id

/-- Row security for an UPDATE on notes: the permissive policies are
joined by OR. -/
def noteUpdateAllowed (caller : String) (meetings : List Meeting)
    (r : NoteRow) : Bool :=
  creatorUpdatePolicy caller meetings r || moveNotesPolicy meetings r

/-- Store effect on one row of the content update issued by updateNote:
the client filter is the note id and the author, and row security
applies. -/
def contentUpdateRow (caller nid newContent : String) (meetings : List Meeting)
    (r : NoteRow) : NoteRow :=
  if r.id == nid && r.created_by == caller && noteUpdateAllowed caller meetings r
  then { r with content := newContent }
  else r

/-- Store effect on one row of the category update issued by
updateNoteType: the client filter is the note id only, and row security
applies. -/
def typeUpdateRow (caller nid : String) (newType : NoteType)
    (meetings : List Meeting) (r : NoteRow) : NoteRow :=
  if r.id == nid && noteUpdateAllowed caller meetings r
  then { r with type := newType }
  else r

/-- The durable content update over the whole notes table. -/
def updateNoteDurable (caller nid newContent : String) (meetings : List Meeting)
    (db : List NoteRow) : List NoteRow :=
  db.map (contentUpdateRow caller nid newContent meetings)

/-- The durable category update over the whole notes table. -/
def updateNoteTypeDurable (caller nid : String) (newType : NoteType)
    (meetings : List Meeting) (db : List NoteRow) : List NoteRow :=
  db.map (typeUpdateRow caller nid newType meetings)

/-- C4 counterexample. The claim states that the category of an item can
be durably mutated only by its author, every durable update call being
scoped by the pair of item id and author, with the store rejecting a
category change attempted by a non-author. Concretely: on an active
board, the category update for a note authored by alice issued by the
distinct caller bob carries no author scope and passes the policy named
Anyone can move notes between sections, so the store applies it and the
row changes. -/
theorem non_author_category_change_accepted :
    updateNoteTypeDurable "bob" "n4" .action
        [⟨"m4", "Retro", "PQR678", "owner", .active, none, none, 0⟩]
        [⟨"n4", "m4", "hello", .glad, "alice"⟩] =
      [⟨"n4", "m4", "hello", .action, "alice"⟩]
    ∧ updateNoteTypeDurable "bob" "n4" .action
        [⟨"m4", "Retro", "PQR678", "owner", .active, none, none, 0⟩]
        [⟨"n4", "m4", "hello", .glad, "alice"⟩] ≠
      [⟨"n4", "m4", "hello", .glad, "alice"⟩] := by
  decide

/-- C4, amended. Content is durably mutable only by the author and only
while the board is active: the content update is scoped by item id and
author, so a non-author call changes no row, and with no active meeting
both updates change nothing. The category, by contrast, is deliberately
collaboratively mutable: the category update is scoped by item id only,
and the store policy accepts a category change from any authenticated
caller while the board is active. -/
theorem note_update_authorization (caller nid newContent : String)
    (newType : NoteType) (meetings : List Meeting) (r1 r2 r3 : NoteRow)
    (h1 : r1.created_by ≠ caller)
    (h2 : meetingActiveIn meetings r2.meeting_id = false)
    (h3 : r3.id = nid)
    (h4 : meetingActiveIn meetings r3.meeting_id = true) :
    contentUpdateRow caller nid newContent meetings r1 = r1
    ∧ contentUpdateRow caller nid newContent meetings r2 = r2
    ∧ typeUpdateRow caller nid newType meetings r2 = r2
    ∧ typeUpdateRow caller nid newType meetings r3 = { r3 with type := newType } := by
  refine ⟨?_, ?_, ?_, ?_⟩
  · simp [contentUpdateRow, h1]
  · simp [contentUpdateRow, noteUpdateAllowed, creatorUpdatePolicy,
      moveNotesPolicy, h2]
  · simp [typeUpdateRow, noteUpdateAllowed, creatorUpdatePolicy,
      moveNotesPolicy, h2]
  · simp [typeUpdateRow, noteUpdateAllowed, creatorUpdatePolicy,
      moveNotesPolicy, h3, h4]

/-- C4 witness: a non-author content update is a no-op, updates on an
ended board are no-ops, and a non-author category move on an active
board takes effect. -/
theorem note_update_authorization_witness :
    contentUpdateRow "bob" "n4" "hacked"
        [⟨"m4", "Retro", "PQR678", "owner", .active, none, none, 0⟩]
        ⟨"n4", "m4", "hello", .glad, "alice"⟩ =
      ⟨"n4", "m4", "hello", .glad, "alice"⟩
    ∧ contentUpdateRow "bob" "n4" "hacked"
        [⟨"m4", "Retro", "PQR678", "owner", .active, none, none, 0⟩]
        ⟨"n5", "mEnded", "bye", .sad, "bob"⟩ =
      ⟨"n5", "mEnded", "bye", .sad, "bob"⟩
    ∧ typeUpdateRow "bob" "n4" .action
        [⟨"m4", "Retro", "PQR678", "owner", .active, none, none, 0⟩]
        ⟨"n5", "mEnded", "bye", .sad, "bob"⟩ =
      ⟨"n5", "mEnded", "bye", .sad, "bob"⟩
    ∧ typeUpdateRow "bob" "n4" .action
        [⟨"m4", "Retro", "PQR678", "owner", .active, none, none, 0⟩]
        ⟨"n4", "m4", "hello", .glad, "alice"⟩ =
      { (⟨"n4", "m4", "hello", .glad, "alice"⟩ : NoteRow) with type := .action } :=
  note_update_authorization "bob" "n4" "hacked" .action
    [⟨"m4", "Retro", "PQR678", "owner", .active, none, none, 0⟩]
    ⟨"n4", "m4", "hello", .glad, "alice"⟩
    ⟨"n5", "mEnded", "bye", .sad, "bob"⟩
    ⟨"n4", "m4", "hello", .glad, "alice"⟩
    (by decide) (by decide) (by decide) (by decide)

end Retro
